import Mathlib

/-!
Verification of the Azure worker-manager provider
(`services/worker-manager/src/providers/azure.js`).

The JavaScript source is shallowly embedded: every stateful method of
`AzureProvider` becomes a pure Lean function from the worker record and an
explicit cloud environment to the updated worker record, the returned value,
and a trace of the observable cloud calls and log events it makes.  Machine
integers do not occur (all arithmetic is on timestamps and counters), so
times are modelled as `Int` milliseconds and counters as `Nat`.

Modelling conventions, each taken from how the source consumes the data:
* Azure resource ids are only ever tested for truthiness
  (`if (!typeData.id)`, `|| worker.providerData.vm.id`,
  `_.some(disks.map(i => i['id']))`) and are assigned from values the code
  treats as truthy (`resource.id`, the literal `true`) or as `false`;
  ids are therefore modelled as `Bool`.
* `providerData.vm.vmId` is kept as `Option String` (its value is compared
  against the registration payload); it is stored as the sibling field
  `vmVmId` because the generic resource-step code never touches it.
* `vm.config.networkProfile.networkInterfaces`, written by the NIC modify
  hook and otherwise only forwarded to the cloud, is modelled by the flag
  `vmNicAttached`.
* Cloud responses are an explicit `Cloud` environment: a GET by resource
  name yields `found / notFound (404) / failure (any other status)`, the
  instance view likewise, and polling an async-operation URL yields one of
  the five outcomes `handleOperation` distinguishes.
-/

namespace TcAzure

/-- Worker lifecycle states (`Worker.states` of the data layer). -/
inductive WState
  | requested
  | running
  | stopping
  | stopped
deriving Repr, DecidableEq

/-- The lowercase names the data layer stores for worker states. -/
def WState.text : WState → String
  | .requested => "requested"
  | .running => "running"
  | .stopping => "stopping"
  | .stopped => "stopped"

/-- azure.js line 24. -/
def successPowerStates : List String :=
  ["PowerState/running", "PowerState/starting"]

/-- azure.js line 25. -/
def failPowerStates : List String :=
  ["PowerState/stopping", "PowerState/stopped", "PowerState/deallocating",
   "PowerState/deallocated"]

/-- azure.js line 26. -/
def successProvisioningStates : List String :=
  ["Succeeded", "Creating", "Updating"]

/-- azure.js line 27. -/
def failProvisioningStates : List String :=
  ["Failed", "Deleting", "Canceled", "Deallocating"]

/-- azure.js line 851: provisioning states under which `removeResource`
does not issue a delete for a found resource. -/
def deletingStates : List String :=
  ["Deleting", "Deallocating", "Deallocated"]

/-- Tag mappings (JS objects with string values).  A JS object spread
`{...as, k: v}` lets later keys win; we model an object as a list of
assignments in reverse order, so an override is a `cons` and `tagLookup`
returns the first binding. -/
def Tags := List (String × String)
deriving instance Repr, DecidableEq for Tags

/-- First (i.e. most recent) binding of a key. -/
def tagLookup : Tags → String → Option String
  | [], _ => none
  | (k, v) :: rest, key => if k = key then some v else tagLookup rest key

/-- Assignment of a key in an object literal: overrides older bindings. -/
def tagSet (t : Tags) (k v : String) : Tags := (k, v) :: t

/-- Per-resource tracking data `{name, operation, id}` of
`providerData.ip` / `.nic` / `.vm` / `.disks[i]` (azure.js lines 215-235). -/
structure ResData where
  name : String
  operation : Option String
  id : Bool
deriving Repr, DecidableEq

/-- The `providerData` bag of a worker as the Azure provider uses it
(azure.js lines 201-239). -/
structure ProviderData where
  resourceGroupName : String
  tags : Tags
  vm : ResData
  /-- `providerData.vm.vmId` (a uuid used at registration). -/
  vmVmId : Option String
  /-- whether `vm.config.networkProfile.networkInterfaces` has been filled
  in by the NIC modify hook (azure.js lines 608-615). -/
  vmNicAttached : Bool
  ip : ResData
  nic : ResData
  disks : List ResData
  /-- deprecated singular `providerData.disk` field, if present. -/
  disk : Option ResData
  terminateAfter : Option Int
  reregistrationTimeout : Option Int
deriving Repr, DecidableEq

/-- A worker row, with the fields the Azure provider reads or writes. -/
structure Worker where
  state : WState
  capacity : Nat
  expires : Int
  lastModified : Int
  lastChecked : Int
  providerData : ProviderData
deriving Repr, DecidableEq

/-- The resource types handled by `provisionResource`. -/
inductive RType
  | ip
  | nic
  | vm
deriving Repr, DecidableEq

/-- The `resourceType` string used as key into `providerData`. -/
def RType.key : RType → String
  | .ip => "ip"
  | .nic => "nic"
  | .vm => "vm"

/-- `worker.providerData[resourceType]` for the provisioned types. -/
def getTypeData (pd : ProviderData) : RType → ResData
  | .ip => pd.ip
  | .nic => pd.nic
  | .vm => pd.vm

/-- Writing `worker.providerData[resourceType]`. -/
def setTypeData (pd : ProviderData) : RType → ResData → ProviderData
  | .ip, r => { pd with ip := r }
  | .nic, r => { pd with nic := r }
  | .vm, r => { pd with vm := r }

/-- Observable effects: cloud API calls issued through the gateway, and the
`workerRemoved` log line `removeWorker` always emits on entry
(azure.js lines 908-913). -/
inductive Ev
  | getRes (rtype name : String)
  | instView (name : String)
  | beginCreateOrUpdate (rtype name : String) (tags : Tags)
  | beginDelete (rtype name : String)
  | opRead (op : String)
  | workerRemoved (reason : String)
deriving Repr, DecidableEq

/-- Result of a cloud GET of a resource by name.  `found` carries the
`provisioningState`, the `vmId` (meaningful for the VM resource only) and
the disk names of the VM's storage profile (`osDisk.name` followed by the
`dataDisks` names, meaningful for the VM resource only). -/
inductive ResGet
  | found (provisioningState : String) (vmId : String) (diskNames : List String)
  | notFound
  | failure
deriving Repr, DecidableEq

/-- Result of the `instanceView` GET for the VM. -/
inductive IVGet
  | found (codes : List String)
  | notFound
  | failure
deriving Repr, DecidableEq

/-- What reading an async-operation URL can yield, one case per branch of
`handleOperation` (azure.js lines 409-462). -/
inductive OpPoll
  | transportError
  | opNotFound
  | inProgress
  | opFailed (msg : String)
  | done
deriving Repr, DecidableEq

/-- The cloud environment for one pass: responses keyed by resource name
or operation URL. -/
structure Cloud where
  resGet : String → ResGet
  instView : IVGet
  pollOp : String → OpPoll
  createOpUrl : String → String
  deleteOpUrl : String → Option String

/-- Errors surfaced by a cloud call, as the provider distinguishes them:
a 404 (`err.statusCode === 404`) versus anything else. -/
inductive CloudErr
  | notFound404
  | other
deriving Repr, DecidableEq

/-- The classification a retry decision of the gateway carries. -/
structure BackoffAction where
  backoff : Nat
  reason : String
  level : String
deriving Repr, DecidableEq

/-- What the gateway's error handler does with a failed call. -/
inductive HandlerResult
  | retry (a : BackoffAction)
  | propagate
deriving Repr, DecidableEq

/-- The `errorHandler` installed on the `CloudAPI` gateway
(azure.js lines 95-104): 429 backs off `_backoffDelay * 50` at level
`notice`; status at least 500 backs off `_backoffDelay * 2 ^ tries` at
level `warning`; everything else is rethrown to the caller. -/
def errorHandler (backoffDelay statusCode tries : Nat) : HandlerResult :=
  if statusCode = 429 then
    .retry ⟨backoffDelay * 50, "rateLimit", "notice"⟩
  else if 500 ≤ statusCode then
    .retry ⟨backoffDelay * 2 ^ tries, "errors", "warning"⟩
  else
    .propagate

/-- `handleOperation` (azure.js lines 409-462): reads the status of an
async operation, returning `true` while it is (or may be) still running.
A transport error is treated as in-progress; a 404, a reported error, or
completion yield `false`. -/
def handleOperation (cloud : Cloud) (op : String) : Bool × List Ev :=
  match cloud.pollOp op with
  | .transportError => (true, [.opRead op])
  | .opNotFound => (false, [.opRead op])
  | .inProgress => (true, [.opRead op])
  | .opFailed _ => (false, [.opRead op])
  | .done => (false, [.opRead op])

/-- `removeResource` (azure.js lines 818-902) on the tracking data of one
resource.  Returns the trace and, unless the GET failed with a non-404
status (which the source rethrows), the updated tracking data and whether
the resource is verified gone (`true` only on a 404 of the GET by name). -/
def removeResource (cloud : Cloud) (rtype : String) (r : ResData) :
    List Ev × Except Unit (ResData × Bool) :=
  if r.id then
    -- id still present: skip the GET and delete straight away
    ([.beginDelete rtype r.name],
     .ok ({ r with
            id := false,
            operation :=
              match cloud.deleteOpUrl r.name with
              | some u => some u
              | none => r.operation }, false))
  else
    match cloud.resGet r.name with
    | .found ps _ _ =>
      if deletingStates.contains ps then
        -- already being deleted; nothing to do this pass
        ([.getRes rtype r.name], .ok (r, false))
      else
        -- shouldDelete
        ([.getRes rtype r.name, .beginDelete rtype r.name],
         .ok ({ r with
                id := false,
                operation :=
                  match cloud.deleteOpUrl r.name with
                  | some u => some u
                  | none => r.operation }, false))
    | .notFound =>
      -- verified gone: clear operation and id
      ([.getRes rtype r.name], .ok ({ r with operation := none, id := false }, true))
    | .failure => ([.getRes rtype r.name], .error ())

/-- The disk loop of `removeWorker` (azure.js lines 966-978): remove each
disk in turn, conjoining the results; a throw aborts the loop but keeps
the updates already made to earlier disks. -/
def removeDisks (cloud : Cloud) : List ResData → List Ev × List ResData × Except Unit Bool
  | [] => ([], [], .ok true)
  | d :: rest =>
    match removeResource cloud "disks" d with
    | (ev, .error _) => (ev, d :: rest, .error ())
    | (ev, .ok (d', ok1)) =>
      let (ev2, rest', r2) := removeDisks cloud rest
      match r2 with
      | .error _ => (ev ++ ev2, d' :: rest', .error ())
      | .ok ok2 => (ev ++ ev2, d' :: rest', .ok (ok1 && ok2))

/-- `removeWorker` (azure.js lines 907-1010).  Logs `workerRemoved`, is a
no-op on a stopped worker, and otherwise walks VM, NIC, IP, then the disks,
each gated on the previous resource being verified gone; deletion errors
are caught (recorded as pool errors) and leave the returned state
`stopping`.  Returns the updated worker, the state value the caller gets,
and the trace. -/
def removeWorker (cloud : Cloud) (now : Int) (reason : String) (w : Worker) :
    Worker × WState × List Ev :=
  let logEv : List Ev := [.workerRemoved reason]
  if w.state = .stopped then
    -- we're done
    (w, .stopped, logEv)
  else
    match removeResource cloud "vm" w.providerData.vm with
    | (ev1, .error _) => (w, .stopping, logEv ++ ev1)
    | (ev1, .ok (vm', vmDeleted)) =>
      let w := { w with providerData.vm := vm' }
      if !vmDeleted || w.providerData.vm.id then (w, .stopping, logEv ++ ev1)
      else
        match removeResource cloud "nic" w.providerData.nic with
        | (ev2, .error _) => (w, .stopping, logEv ++ ev1 ++ ev2)
        | (ev2, .ok (nic', nicDeleted)) =>
          let w := { w with providerData.nic := nic' }
          if !nicDeleted || w.providerData.nic.id then (w, .stopping, logEv ++ ev1 ++ ev2)
          else
            match removeResource cloud "ip" w.providerData.ip with
            | (ev3, .error _) => (w, .stopping, logEv ++ ev1 ++ ev2 ++ ev3)
            | (ev3, .ok (ip', ipDeleted)) =>
              let w := { w with providerData.ip := ip' }
              if !ipDeleted || w.providerData.ip.id then
                (w, .stopping, logEv ++ ev1 ++ ev2 ++ ev3)
              else
                let (ev4, disks', r4) := removeDisks cloud w.providerData.disks
                let w := { w with providerData.disks := disks' }
                match r4 with
                | .error _ => (w, .stopping, logEv ++ ev1 ++ ev2 ++ ev3 ++ ev4)
                | .ok disksDeleted =>
                  if !disksDeleted || disks'.any (fun d => d.id) then
                    (w, .stopping, logEv ++ ev1 ++ ev2 ++ ev3 ++ ev4)
                  else
                    let w := { w with
                               state := .stopped, lastModified := now, lastChecked := now }
                    (w, .stopped, logEv ++ ev1 ++ ev2 ++ ev3 ++ ev4)

/-- The IP modify hook of the provision pipeline (azure.js line 584):
does nothing. -/
def ipModifyFn (w : Worker) (_diskNames : List String) : Worker := w

/-- The NIC modify hook `nicModifyFunc` (azure.js lines 608-615): records
the created NIC into the VM config's network profile. -/
def nicModifyFunc (w : Worker) (_diskNames : List String) : Worker :=
  { w with providerData.vmNicAttached := true }

/-- The VM modify hook `vmModifyFunc` (azure.js lines 629-644): reads the
disk names off the created VM's storage profile and records them, each with
the sentinel id `true`, into `providerData.disks`. -/
def vmModifyFunc (w : Worker) (diskNames : List String) : Worker :=
  { w with providerData.disks := diskNames.map (fun n => ⟨n, none, true⟩) }

/-- `provisionResource` (azure.js lines 482-564) for one resource type.
If the id is already set nothing happens.  Otherwise the resource is looked
up by name: on success it is either adopted (id set, modify hook run) or,
if its provisioning state is failing, the worker is torn down; on a 404
with an operation in flight the operation is polled (tearing the worker
down if the operation is gone); on a 404 with no operation a create is
issued and its operation URL stored.  A non-404 lookup failure is
rethrown. -/
def provisionResource (cloud : Cloud) (now : Int) (t : RType)
    (modifyFn : Worker → List String → Worker) (w : Worker) :
    List Ev × Except Unit Worker :=
  let td := getTypeData w.providerData t
  if td.id then
    -- resource already exists; no cloud call at all
    ([], .ok w)
  else
    match cloud.resGet td.name with
    | .found ps _ diskNames =>
      if failProvisioningStates.contains ps then
        let w := { w with providerData := setTypeData w.providerData t { td with operation := none } }
        let (w', _, ev) := removeWorker cloud now (t.key ++ " has state " ++ ps) w
        ([.getRes t.key td.name] ++ ev, .ok w')
      else
        let w := { w with
                   providerData := setTypeData w.providerData t { td with id := true, operation := none } }
        let w := modifyFn w diskNames
        ([.getRes t.key td.name], .ok w)
    | .notFound =>
      match td.operation with
      | some op =>
        let (inProg, evOp) := handleOperation cloud op
        if inProg then
          -- operation still in progress: wait for the next pass
          ([.getRes t.key td.name] ++ evOp, .ok w)
        else
          let w := { w with providerData := setTypeData w.providerData t { td with operation := none } }
          let (w', _, ev) := removeWorker cloud now "operation expired" w
          ([.getRes t.key td.name] ++ evOp ++ ev, .ok w')
      | none =>
        let w' := { w with
                    providerData := setTypeData w.providerData t
                      { td with operation := some (cloud.createOpUrl td.name) } }
        ([.getRes t.key td.name, .beginCreateOrUpdate t.key td.name w.providerData.tags], .ok w')
    | .failure => ([.getRes t.key td.name], .error ())

/-- `provisionResources` (azure.js lines 572-673): drive IP, NIC, VM in
order, stopping at the first resource whose id is still absent (returning
the worker's stored state); when every id is present the returned value is
`Worker.states.RUNNING`.  A throw from any step reports a creation error
and tears the worker down. -/
def provisionResources (cloud : Cloud) (now : Int) (w : Worker) :
    Worker × WState × List Ev :=
  match provisionResource cloud now .ip ipModifyFn w with
  | (ev1, .error _) =>
    let (w', s, ev) := removeWorker cloud now "VM Creation Error" w
    (w', s, ev1 ++ ev)
  | (ev1, .ok w1) =>
    if !w1.providerData.ip.id then (w1, w1.state, ev1)
    else
      match provisionResource cloud now .nic nicModifyFunc w1 with
      | (ev2, .error _) =>
        let (w', s, ev) := removeWorker cloud now "VM Creation Error" w1
        (w', s, ev1 ++ ev2 ++ ev)
      | (ev2, .ok w2) =>
        if !w2.providerData.nic.id then (w2, w2.state, ev1 ++ ev2)
        else
          match provisionResource cloud now .vm vmModifyFunc w2 with
          | (ev3, .error _) =>
            let (w', s, ev) := removeWorker cloud now "VM Creation Error" w2
            (w', s, ev1 ++ ev2 ++ ev3 ++ ev)
          | (ev3, .ok w3) =>
            if !w3.providerData.vm.id then (w3, w3.state, ev1 ++ ev2 ++ ev3)
            else (w3, .running, ev1 ++ ev2 ++ ev3)

/-- `fetchVmInfo` (azure.js lines 675-688): GET the VM by name; on success
persist the fetched `vmId` if none is stored yet, and return the
provisioning state and vmId.  A failed GET propagates (404 or other). -/
def fetchVmInfo (cloud : Cloud) (w : Worker) :
    List Ev × Except CloudErr (Worker × String × String) :=
  match cloud.resGet w.providerData.vm.name with
  | .found ps vmid _ =>
    let w' := if w.providerData.vmVmId.isNone then
                { w with providerData.vmVmId := some vmid }
              else w
    ([.getRes "vm" w.providerData.vm.name], .ok (w', ps, vmid))
  | .notFound => ([.getRes "vm" w.providerData.vm.name], .error .notFound404)
  | .failure => ([.getRes "vm" w.providerData.vm.name], .error .other)

/-- One day in milliseconds (`taskcluster.fromNow('1 day')`). -/
def dayMs : Int := 86400000

/-- One week in milliseconds (`taskcluster.fromNow('1 week')`). -/
def weekMs : Int := 604800000

/-- 96 hours in milliseconds (`taskcluster.fromNow('96 hours')`). -/
def hours96Ms : Int := 345600000

/-- The 404 branch of `checkWorker`'s catch (azure.js lines 770-779):
the VM is unobservable, so a `requested` worker is driven through the
provision pipeline, a `stopping` worker continues removal, and any other
state is torn down. -/
def checkWorkerVmGone (cloud : Cloud) (now : Int) (state : WState) (w : Worker) :
    Worker × WState × List Ev :=
  if state = .requested then
    provisionResources cloud now w
  else if state = .stopping then
    removeWorker cloud now "continuing removal" w
  else
    removeWorker cloud now ("vm in " ++ state.text ++ " not found") w

/-- The result of one `checkWorker` pass: the persisted worker, the trace,
and the amount added to the per-pool `seen` counter. -/
structure CheckResult where
  worker : Worker
  events : List Ev
  seenDelta : Nat
deriving Repr, DecidableEq

/-- The final update of `checkWorker` (azure.js lines 782-790):
`lastModified` is touched only when the state changed, `lastChecked`
always, and the computed state is persisted. -/
def checkFinalize (now : Int) (w : Worker) (state : WState) (ev : List Ev)
    (seenDelta : Nat) : CheckResult :=
  ⟨{ w with
     lastModified := if w.state = state then w.lastModified else now,
     lastChecked := now,
     state := state }, ev, seenDelta⟩

/-- `checkWorker` (azure.js lines 690-791).  First the deprecated singular
`providerData.disk` is copied into `disks` whenever it is present; then the
VM and its instance view are fetched and the worker classified as healthy
(extend `expires` when it is within a day, tear down when `terminateAfter`
has passed, count it as seen), failed (tear down with a diagnostic reason),
or unknown (report a creation error); a 404 on either GET takes the
VM-unobservable branch.  A non-404 cloud error propagates out of the pass.
Time `now` stands for both `new Date()` and `Date.now()`. -/
def checkWorker (cloud : Cloud) (now : Int) (w0 : Worker) :
    Except CloudErr CheckResult :=
  -- update providerdata from deprecated disk to disks if applicable
  let w := match w0.providerData.disk with
    | some d => { w0 with providerData.disks := [d] }
    | none => w0
  let state := w.state
  match fetchVmInfo cloud w with
  | (ev0, .error .notFound404) =>
    let (w', s, ev) := checkWorkerVmGone cloud now state w
    .ok (checkFinalize now w' s (ev0 ++ ev) 0)
  | (_, .error .other) => .error .other
  | (ev0, .ok (w, ps, _)) =>
    match cloud.instView with
    | .failure => .error .other
    | .notFound =>
      let (w', s, ev) := checkWorkerVmGone cloud now state w
      .ok (checkFinalize now w' s (ev0 ++ [.instView w.providerData.vm.name] ++ ev) 0)
    | .found codes =>
      let ev0 := ev0 ++ [.instView w.providerData.vm.name]
      if successProvisioningStates.contains ps
          && codes.any (fun c => successPowerStates.contains c) then
        -- healthy
        let seenDelta := if w.capacity = 0 then 1 else w.capacity
        let w := if w.expires < now + dayMs then { w with expires := now + weekMs } else w
        match w.providerData.terminateAfter with
        | some ta =>
          if ta ≠ 0 ∧ ta < now then
            let (w', s, ev) := removeWorker cloud now "terminateAfter time exceeded" w
            .ok (checkFinalize now w' s (ev0 ++ ev) seenDelta)
          else
            .ok (checkFinalize now w state ev0 seenDelta)
        | none => .ok (checkFinalize now w state ev0 seenDelta)
      else if failProvisioningStates.contains ps
          || codes.any (fun c => failPowerStates.contains c) then
        -- failed
        let reason := "failed state; provisioningState=" ++ ps ++ ", powerStates="
          ++ String.intercalate ", " codes
        let (w', s, ev) := removeWorker cloud now reason w
        .ok (checkFinalize now w' s (ev0 ++ ev) 0)
      else
        -- unknown provisioningState / powerStates: report a creation error
        .ok (checkFinalize now w state ev0 0)

/-- The attested-data document of `registerWorker`, after the cryptography
is abstracted into outcomes: the four validation stages that can fail
opaquely (PKCS#7 parse, content extraction, signature, certificate chain)
plus JSON parsing, and the payload fields the checks consume. -/
structure RegDoc where
  pkcs7Ok : Bool
  contentOk : Bool
  sigOk : Bool
  chainOk : Bool
  jsonOk : Bool
  payloadVmId : String
  payloadExpiresOn : Int
deriving Repr, DecidableEq

/-- How a `registerWorker` call can fail: the uniform opaque
`ApiError('Signature validation error')`, or a cloud error propagated
from `fetchVmInfo`. -/
inductive RegError
  | opaqueError
  | cloud (e : CloudErr)
deriving Repr, DecidableEq

/-- `registerWorker` (azure.js lines 271-395).  All validation failures
throw the same opaque error.  After the cryptographic checks, a missing
stored `vmId` is fetched from the cloud (and persisted by `fetchVmInfo`);
then the payload vmId, the expiry timestamp, and the `requested` state are
asserted in that order; on success the worker becomes `running` with
`terminateAfter` set to the computed expiry (default 96 hours, or
`reregistrationTimeout` when that is set and nonzero — JS truthiness).
Returns the updated worker and the expiry or the error. -/
def registerWorker (cloud : Cloud) (now : Int) (w : Worker) (doc : RegDoc) :
    Worker × Except RegError Int :=
  if !doc.pkcs7Ok then (w, .error .opaqueError)
  else if !doc.contentOk then (w, .error .opaqueError)
  else if !doc.sigOk then (w, .error .opaqueError)
  else if !doc.chainOk then (w, .error .opaqueError)
  else if !doc.jsonOk then (w, .error .opaqueError)
  else
    let fetched : Except CloudErr (Worker × String) :=
      match w.providerData.vmVmId with
      | some v => .ok (w, v)
      | none =>
        match fetchVmInfo cloud w with
        | (_, .ok (w', _, vmid)) => .ok (w', vmid)
        | (_, .error e) => .error e
    match fetched with
    | .error e => (w, .error (.cloud e))
    | .ok (w, workerVmId) =>
      if doc.payloadVmId ≠ workerVmId then (w, .error .opaqueError)
      else if !(decide (doc.payloadExpiresOn > now)) then (w, .error .opaqueError)
      else if w.state ≠ .requested then (w, .error .opaqueError)
      else
        let expires : Int :=
          match w.providerData.reregistrationTimeout with
          | some t => if t = 0 then now + hours96Ms else now + t
          | none => now + hours96Ms
        ({ w with
           state := .running,
           lastModified := now,
           providerData.terminateAfter := some expires }, .ok expires)

/-- The identity of the provider instance, used to compute the reserved
tags (azure.js lines 205-214). -/
structure ProvisionCtx where
  providerId : String
  rootUrl : String
  workerPoolId : String
  workerGroup : String
  owner : String

/-- The reserved tag keys of the spec. -/
def reservedTagKeys : List String :=
  ["created-by", "managed-by", "provider-id", "worker-group", "worker-pool-id",
   "root-url", "owner"]

/-- The tag object built by `provision` (azure.js lines 205-214):
`{...cfg.tags || {}, 'created-by': ..., ..., 'owner': ...}` — the seven
reserved assignments override any user-supplied binding. -/
def provisionTags (ctx : ProvisionCtx) (userTags : Tags) : Tags :=
  tagSet (tagSet (tagSet (tagSet (tagSet (tagSet (tagSet userTags
    "created-by" ("taskcluster-wm-" ++ ctx.providerId))
    "managed-by" "taskcluster")
    "provider-id" ctx.providerId)
    "worker-group" ctx.workerGroup)
    "worker-pool-id" ctx.workerPoolId)
    "root-url" ctx.rootUrl)
    "owner" ctx.owner

/-- Iterated scanner-driven provisioning: N passes of `provisionResources`
on one worker, collecting the concatenated trace. -/
def iterProvision (cloud : Cloud) (now : Int) : Nat → Worker → Worker × List Ev
  | 0, w => (w, [])
  | n + 1, w =>
    let (w1, _, ev1) := provisionResources cloud now w
    let (w2, ev2) := iterProvision cloud now n w1
    (w2, ev1 ++ ev2)

/-- Iterated removal: N invocations of `removeWorker` on one worker; each
entry of the result records the worker at the start of that invocation and
the trace of that invocation. -/
def iterRemove (cloud : Cloud) (now : Int) (reason : String) :
    Nat → Worker → List (Worker × List Ev)
  | 0, _ => []
  | n + 1, w =>
    let (w', _, ev) := removeWorker cloud now reason w
    (w, ev) :: iterRemove cloud now reason n w'

/-- Number of `beginCreateOrUpdate` calls for a given resource type in a
trace. -/
def createCount (rt : String) (evs : List Ev) : Nat :=
  (evs.filter (fun e =>
    match e with
    | .beginCreateOrUpdate rt2 _ _ => rt2 == rt
    | _ => false)).length

/-- Whether a trace contains a `workerRemoved` log line, i.e. whether
`removeWorker` was invoked during the pass. -/
def hasWorkerRemoved (evs : List Ev) : Bool :=
  evs.any (fun e =>
    match e with
    | .workerRemoved _ => true
    | _ => false)

/-- The first resource of the IP, NIC, VM chain whose id is absent has an
operation recorded.  `provisionResources` reestablishes this after every
pass against a cloud that reports no progress, and makes no further
`beginCreateOrUpdate` calls from such a worker. -/
def stalledW (w : Worker) : Prop :=
  (w.providerData.ip.id = false → w.providerData.ip.operation ≠ none)
  ∧ (w.providerData.ip.id = true → w.providerData.nic.id = false →
      w.providerData.nic.operation ≠ none)
  ∧ (w.providerData.ip.id = true → w.providerData.nic.id = true →
      w.providerData.vm.id = false → w.providerData.vm.operation ≠ none)

/-! Concrete instances used as failing inputs and witnesses. -/

/-- A cloud where every GET by name returns 404 and every operation poll
reports completion. -/
def goneCloud : Cloud :=
  ⟨fun _ => .notFound, .notFound, fun _ => .done, fun nm => "op-" ++ nm, fun _ => none⟩

/-- A cloud reporting no progress at all: every GET by name returns 404
and every stored operation polls as in progress. -/
def stallCloud : Cloud :=
  ⟨fun _ => .notFound, .notFound, fun _ => .inProgress, fun nm => "op-" ++ nm, fun _ => none⟩

/-- A cloud whose VM is observable with provisioning state `Succeeded` and
whose instance view reports both a healthy and a failing power state. -/
def mixedCloud : Cloud :=
  ⟨fun _ => .found "Succeeded" "vmid-1" [],
   .found ["PowerState/running", "PowerState/stopped"],
   fun _ => .done, fun nm => "op-" ++ nm, fun _ => none⟩

/-- Provider data of a worker whose ip, nic and vm all have their ids set
(the provision pipeline has completed). -/
def allocatedPD : ProviderData :=
  ⟨"rgrp", [], ⟨"vm-1", none, true⟩, some "vmid-1", true,
   ⟨"pip-1", none, true⟩, ⟨"nic-1", none, true⟩, [], none, none, none⟩

/-- Provider data of a freshly created worker (no resource provisioned). -/
def emptyPD : ProviderData :=
  ⟨"rgrp", [], ⟨"vm-1", none, false⟩, none, false,
   ⟨"pip-1", none, false⟩, ⟨"nic-1", none, false⟩, [], none, none, none⟩

/-- A fully provisioned worker that has never registered: still
`requested`. -/
def c1Worker : Worker := ⟨.requested, 1, 0, 0, 0, allocatedPD⟩

/-- A stopped worker. -/
def c2Worker : Worker := ⟨.stopped, 1, 0, 0, 0, allocatedPD⟩

/-- A legacy singular disk entry. -/
def dOld : ResData := ⟨"old", none, false⟩

/-- A current disks entry. -/
def dCur : ResData := ⟨"curr", none, true⟩

/-- A worker carrying both the legacy `providerData.disk` field and an
already-populated `disks` sequence. -/
def c3Worker : Worker :=
  ⟨.requested, 1, 0, 0, 0, { emptyPD with disks := [dCur], disk := some dOld }⟩

/-- A running worker whose VM is gone but whose NIC still has an id. -/
def c5Worker : Worker :=
  ⟨.running, 1, 0, 0, 0, { allocatedPD with vm := ⟨"vm-1", none, false⟩ }⟩

/-- The entry that one `removeWorker` invocation on `c5Worker` contributes
to `iterRemove`. -/
def c5Entry : Worker × List Ev :=
  (c5Worker,
   [.workerRemoved "removing", .getRes "vm" "vm-1", .beginDelete "nic" "nic-1"])

/-- A running worker with a far-away expiry. -/
def c8Worker : Worker := ⟨.running, 1, 999999999999, 0, 0, allocatedPD⟩

/-- A running worker used to witness duplicate registration. -/
def c4Worker : Worker := ⟨.running, 1, 0, 50, 0, { allocatedPD with terminateAfter := some 77 }⟩

/-- A registration document that passes every validation stage and embeds
the vmId of `allocatedPD`. -/
def goodDoc : RegDoc := ⟨true, true, true, true, true, "vmid-1", 2000⟩

/-- A requested worker with no stored vmId. -/
def c10Worker : Worker := ⟨.requested, 1, 0, 0, 0, { allocatedPD with vmVmId := none }⟩

/-- A cloud whose VM GET succeeds with vmId `vmid-1`. -/
def foundCloud : Cloud :=
  ⟨fun _ => .found "Succeeded" "vmid-1" [], .found ["PowerState/running"],
   fun _ => .done, fun nm => "op-" ++ nm, fun _ => none⟩

/-- A registration document whose embedded vmId does not match. -/
def wrongVmIdDoc : RegDoc := ⟨true, true, true, true, true, "vmid-other", 2000⟩

/-- Whether an event is a GET by name or a delete request: the only cloud
calls the removal pipeline makes. -/
def isGetOrDelete : Ev → Bool
  | .getRes _ _ => true
  | .beginDelete _ _ => true
  | _ => false

/-! ## Helper lemmas about the removal pipeline's trace -/

/-- Every event of one `removeResource` call is a GET or a delete of that
very resource. -/
theorem removeResource_events (cloud : Cloud) (rt : String) (r : ResData) :
    ∀ e ∈ (removeResource cloud rt r).1,
      e = Ev.getRes rt r.name ∨ e = Ev.beginDelete rt r.name := by
  intro e he
  by_cases hid : r.id
  · simp [removeResource, hid] at he
    simp [he]
  · cases hg : cloud.resGet r.name with
    | found ps vmid dn =>
      by_cases hdel : ps ∈ deletingStates
      · simp [removeResource, hid, hg, hdel] at he
        simp [he]
      · simp [removeResource, hid, hg, hdel] at he
        rcases he with he | he <;> simp [he]
    | notFound =>
      simp [removeResource, hid, hg] at he
      simp [he]
    | failure =>
      simp [removeResource, hid, hg] at he
      simp [he]

/-- `removeResource` reports a resource as verified gone only when its id
was already absent and the GET by name returned 404. -/
theorem removeResource_gone (cloud : Cloud) (rt : String) (r r' : ResData)
    (h : (removeResource cloud rt r).2 = .ok (r', true)) :
    r.id = false ∧ cloud.resGet r.name = .notFound := by
  by_cases hid : r.id
  · simp [removeResource, hid] at h
  · cases hg : cloud.resGet r.name with
    | found ps vmid dn =>
      by_cases hdel : ps ∈ deletingStates <;>
        simp [removeResource, hid, hg, hdel] at h
    | notFound => simp [hid, hg]
    | failure => simp [removeResource, hid, hg] at h

/-- Every event of the disk-removal loop is a GET or a delete tagged
`disks`. -/
theorem removeDisks_events (cloud : Cloud) (ds : List ResData) :
    ∀ e ∈ (removeDisks cloud ds).1,
      ∃ nm, e = Ev.getRes "disks" nm ∨ e = Ev.beginDelete "disks" nm := by
  induction ds with
  | nil => intro e he; simp [removeDisks] at he
  | cons d rest ih =>
    intro e he
    rcases hrr : removeResource cloud "disks" d with ⟨ev, res⟩
    have hev : ∀ e ∈ ev, e = Ev.getRes "disks" d.name ∨ e = Ev.beginDelete "disks" d.name := by
      intro e1 he1
      exact removeResource_events cloud "disks" d e1 (by rw [hrr]; exact he1)
    rcases res with _ | ⟨d', ok1⟩
    · simp [removeDisks, hrr] at he
      exact ⟨d.name, hev e he⟩
    · rcases hrd : removeDisks cloud rest with ⟨ev2, rest', r2⟩
      have hev2 : ∀ e ∈ ev2, ∃ nm, e = Ev.getRes "disks" nm ∨ e = Ev.beginDelete "disks" nm := by
        intro e2 he2
        exact ih e2 (by rw [hrd]; exact he2)
      rcases r2 with _ | ok2 <;> simp [removeDisks, hrr, hrd] at he <;>
        rcases he with he | he
      · exact ⟨d.name, hev e he⟩
      · exact hev2 e he
      · exact ⟨d.name, hev e he⟩
      · exact hev2 e he

/-- The trace of `removeWorker` is the `workerRemoved` log line followed by
GETs and deletes only. -/
theorem removeWorker_trace_shape (cloud : Cloud) (now : Int) (reason : String) (w : Worker) :
    ∃ evs, (removeWorker cloud now reason w).2.2 = Ev.workerRemoved reason :: evs
      ∧ ∀ e ∈ evs, isGetOrDelete e = true := by
  have hres : ∀ rt r, ∀ e ∈ (removeResource cloud rt r).1, isGetOrDelete e = true := by
    intro rt r e he
    rcases removeResource_events cloud rt r e he with h | h <;> simp [h, isGetOrDelete]
  have hdisks : ∀ ds, ∀ e ∈ (removeDisks cloud ds).1, isGetOrDelete e = true := by
    intro ds e he
    rcases removeDisks_events cloud ds e he with ⟨nm, h | h⟩ <;> simp [h, isGetOrDelete]
  by_cases hst : w.state = .stopped
  · exact ⟨[], by simp [removeWorker, hst], by simp⟩
  · rcases h1 : removeResource cloud "vm" w.providerData.vm with ⟨ev1, r1⟩
    have hev1 := fun e he => hres "vm" w.providerData.vm e (by rw [h1]; exact he)
    rcases r1 with _ | ⟨vm', vmDel⟩
    · exact ⟨ev1, by simp [removeWorker, hst, h1], hev1⟩
    · by_cases hgate1 : (!vmDel || ({ w with providerData.vm := vm' } : Worker).providerData.vm.id) = true
      · exact ⟨ev1, by simp [removeWorker, hst, h1, hgate1], hev1⟩
      · rcases h2 : removeResource cloud "nic" ({ w with providerData.vm := vm' } : Worker).providerData.nic with ⟨ev2, r2⟩
        have hev2 := fun e he => hres "nic" _ e (by rw [h2]; exact he)
        have hcat2 : ∀ e ∈ ev1 ++ ev2, isGetOrDelete e = true := by
          intro e he
          rcases List.mem_append.mp he with h | h
          · exact hev1 e h
          · exact hev2 e h
        rcases r2 with _ | ⟨nic', nicDel⟩
        · exact ⟨ev1 ++ ev2, by simp [removeWorker, hst, h1, hgate1, h2], hcat2⟩
        · by_cases hgate2 : (!nicDel || ({ { w with providerData.vm := vm' } with providerData.nic := nic' } : Worker).providerData.nic.id) = true
          · exact ⟨ev1 ++ ev2, by simp [removeWorker, hst, h1, hgate1, h2, hgate2], hcat2⟩
          · rcases h3 : removeResource cloud "ip" ({ { w with providerData.vm := vm' } with providerData.nic := nic' } : Worker).providerData.ip with ⟨ev3, r3⟩
            have hev3 := fun e he => hres "ip" _ e (by rw [h3]; exact he)
            have hcat3 : ∀ e ∈ ev1 ++ ev2 ++ ev3, isGetOrDelete e = true := by
              intro e he
              rcases List.mem_append.mp he with h | h
              · exact hcat2 e h
              · exact hev3 e h
            rcases r3 with _ | ⟨ip', ipDel⟩
            · exact ⟨ev1 ++ ev2 ++ ev3, by simp [removeWorker, hst, h1, hgate1, h2, hgate2, h3], hcat3⟩
            · by_cases hgate3 : (!ipDel || ip'.id) = true
              · exact ⟨ev1 ++ ev2 ++ ev3,
                  by simp [removeWorker, hst, h1, hgate1, h2, hgate2, h3, hgate3], hcat3⟩
              · rcases h4 : removeDisks cloud ({ { w with providerData.vm := vm' } with providerData.nic := nic' } : Worker).providerData.disks with ⟨ev4, disks', r4⟩
                have hev4 := fun e he => hdisks _ e (by rw [h4]; exact he)
                have hcat4 : ∀ e ∈ ev1 ++ ev2 ++ ev3 ++ ev4, isGetOrDelete e = true := by
                  intro e he
                  rcases List.mem_append.mp he with h | h
                  · exact hcat3 e h
                  · exact hev4 e h
                rcases r4 with _ | disksDel
                · exact ⟨ev1 ++ ev2 ++ ev3 ++ ev4,
                    by simp [removeWorker, hst, h1, hgate1, h2, hgate2, h3, hgate3, h4], hcat4⟩
                · by_cases hgate4 : (!disksDel || disks'.any (fun d => d.id)) = true
                  · exact ⟨ev1 ++ ev2 ++ ev3 ++ ev4,
                      by simp [removeWorker, hst, h1, hgate1, h2, hgate2, h3, hgate3, h4, hgate4], hcat4⟩
                  · exact ⟨ev1 ++ ev2 ++ ev3 ++ ev4,
                      by simp [removeWorker, hst, h1, hgate1, h2, hgate2, h3, hgate3, h4, hgate4], hcat4⟩

/-- `handleOperation` always makes exactly one `opRead` call. -/
theorem handleOperation_snd (cloud : Cloud) (op : String) :
    (handleOperation cloud op).2 = [Ev.opRead op] := by
  unfold handleOperation
  cases cloud.pollOp op <;> rfl

/-! ## Claim C9: the gateway's backoff classifier -/

/-- C9: for every error classified by the gateway's error handler and every
try count, a status code of exactly 429 yields backoff `base * 50` at level
`notice` with retry; a status code of at least 500 yields backoff
`base * 2 ^ tries` at level `warning` with retry; every other status
(including 4xx other than 429) is propagated unchanged without retry. -/
theorem errorHandler_classification (base tries status : Nat) :
    (status = 429 →
      errorHandler base status tries = .retry ⟨base * 50, "rateLimit", "notice"⟩)
    ∧ (500 ≤ status →
      errorHandler base status tries = .retry ⟨base * 2 ^ tries, "errors", "warning"⟩)
    ∧ (status ≠ 429 → status < 500 → errorHandler base status tries = .propagate) := by
  refine ⟨fun h => ?_, fun h => ?_, fun h1 h2 => ?_⟩
  · simp [errorHandler, h]
  · have h429 : status ≠ 429 := by omega
    simp [errorHandler, h429, h]
  · have h500 : ¬ 500 ≤ status := by omega
    simp [errorHandler, h1, h500]

/-- Witness for C9 at status codes 429, 503 and 404 with base 1000 and
three tries. -/
theorem errorHandler_classification_witness :
    errorHandler 1000 429 3 = .retry ⟨50000, "rateLimit", "notice"⟩
    ∧ errorHandler 1000 503 3 = .retry ⟨8000, "errors", "warning"⟩
    ∧ errorHandler 1000 404 3 = .propagate :=
  ⟨(errorHandler_classification 1000 3 429).1 rfl,
   (errorHandler_classification 1000 3 503).2.1 (by decide),
   (errorHandler_classification 1000 3 404).2.2 (by decide) (by decide)⟩

/-! ## Claim C7: reserved tags always carry the provider-computed value -/

/-- C7: in the tag object `provision` stores (and which `provisionResource`
sends verbatim with every `beginCreateOrUpdate`), each of the seven
reserved keys carries the provider-computed value regardless of any
user-supplied binding, every non-reserved user tag is passed through
unchanged, and every `beginCreateOrUpdate` issued by `provisionResource`
carries exactly the worker's stored tag object. -/
theorem provision_tag_authority (ctx : ProvisionCtx) (userTags : Tags) :
    tagLookup (provisionTags ctx userTags) "created-by"
      = some ("taskcluster-wm-" ++ ctx.providerId)
    ∧ tagLookup (provisionTags ctx userTags) "managed-by" = some "taskcluster"
    ∧ tagLookup (provisionTags ctx userTags) "provider-id" = some ctx.providerId
    ∧ tagLookup (provisionTags ctx userTags) "worker-group" = some ctx.workerGroup
    ∧ tagLookup (provisionTags ctx userTags) "worker-pool-id" = some ctx.workerPoolId
    ∧ tagLookup (provisionTags ctx userTags) "root-url" = some ctx.rootUrl
    ∧ tagLookup (provisionTags ctx userTags) "owner" = some ctx.owner
    ∧ (∀ k, k ∉ reservedTagKeys →
        tagLookup (provisionTags ctx userTags) k = tagLookup userTags k)
    ∧ (∀ (cloud : Cloud) (now : Int) (t : RType) (f : Worker → List String → Worker)
         (w : Worker) (rt nm : String) (tg : Tags),
        Ev.beginCreateOrUpdate rt nm tg ∈ (provisionResource cloud now t f w).1 →
        tg = w.providerData.tags) := by
  refine ⟨rfl, rfl, rfl, rfl, rfl, rfl, rfl, fun k hk => ?_, ?_⟩
  · simp [reservedTagKeys] at hk
    obtain ⟨h1, h2, h3, h4, h5, h6, h7⟩ := hk
    simp [provisionTags, tagSet, tagLookup,
      Ne.symm h1, Ne.symm h2, Ne.symm h3, Ne.symm h4, Ne.symm h5, Ne.symm h6, Ne.symm h7]
  · intro cloud now t f w rt nm tg hmem
    have hnocreate : ∀ (reason : String) (w1 : Worker),
        Ev.beginCreateOrUpdate rt nm tg ∉ (removeWorker cloud now reason w1).2.2 := by
      intro reason w1 hmem1
      rcases removeWorker_trace_shape cloud now reason w1 with ⟨evs, hsh, hall⟩
      rw [hsh] at hmem1
      rcases List.mem_cons.mp hmem1 with h | h
      · exact Ev.noConfusion h
      · have := hall _ h
        simp [isGetOrDelete] at this
    set td := getTypeData w.providerData t with htd
    by_cases hid : td.id
    · simp [provisionResource, ← htd, hid] at hmem
    · cases hg : cloud.resGet td.name with
      | found ps vmid dn =>
        by_cases hfail : ps ∈ failProvisioningStates
        · simp [provisionResource, ← htd, hid, hg, hfail] at hmem
          exact absurd hmem (hnocreate _ _)
        · simp [provisionResource, ← htd, hid, hg, hfail] at hmem
      | notFound =>
        cases hop : td.operation with
        | some op =>
          rcases hho : handleOperation cloud op with ⟨inProg, evOp⟩
          have hevOp : evOp = [Ev.opRead op] := by
            have h2 := handleOperation_snd cloud op
            rw [hho] at h2
            exact h2
          cases inProg with
          | true =>
            simp [provisionResource, ← htd, hid, hg, hop, hho, hevOp] at hmem
          | false =>
            simp [provisionResource, ← htd, hid, hg, hop, hho, hevOp] at hmem
            exact absurd hmem (hnocreate _ _)
        | none =>
          simp [provisionResource, ← htd, hid, hg, hop] at hmem
          exact hmem.2.2
      | failure =>
        simp [provisionResource, ← htd, hid, hg] at hmem

/-- Witness for C7: a user-supplied `owner` and `created-by` are overridden
and a custom tag passes through; a concrete create request carries the
stored tags. -/
theorem provision_tag_authority_witness :
    tagLookup (provisionTags ⟨"azure", "https://tc.example.com", "foo/bar", "westus", "me@example.com"⟩
        [("owner", "evil@example.com"), ("created-by", "evil"), ("team", "relops")]) "owner"
      = some "me@example.com"
    ∧ tagLookup (provisionTags ⟨"azure", "https://tc.example.com", "foo/bar", "westus", "me@example.com"⟩
        [("owner", "evil@example.com"), ("created-by", "evil"), ("team", "relops")]) "team"
      = some "relops"
    ∧ ("tag-a", "1") = ("tag-a", "1") := by
  refine ⟨(provision_tag_authority _ _).2.2.2.2.2.2.1, ?_, rfl⟩
  have h := (provision_tag_authority
    ⟨"azure", "https://tc.example.com", "foo/bar", "westus", "me@example.com"⟩
    [("owner", "evil@example.com"), ("created-by", "evil"), ("team", "relops")]).2.2.2.2.2.2.2.1
      "team" (by decide)
  rw [h]
  rfl

/-! ## Claim C4: duplicate registration is refused without mutation -/

/-- C4: for a worker whose state is not `requested` (in particular one
already `running`), `registerWorker` on a document that passes the
signature, chain, vmId and timestamp checks throws the opaque
`Signature validation error` and does not mutate the worker record: the
returned worker is exactly the input, so its state, `terminateAfter` and
`lastModified` are unchanged. -/
theorem registerWorker_duplicate_refused (cloud : Cloud) (now : Int) (w : Worker)
    (doc : RegDoc) (v : String)
    (hp : doc.pkcs7Ok = true) (hc : doc.contentOk = true) (hs : doc.sigOk = true)
    (hch : doc.chainOk = true) (hj : doc.jsonOk = true)
    (hvm : w.providerData.vmVmId = some v)
    (hmatch : doc.payloadVmId = v)
    (hts : doc.payloadExpiresOn > now)
    (hstate : w.state ≠ .requested) :
    registerWorker cloud now w doc = (w, .error .opaqueError)
    ∧ (registerWorker cloud now w doc).1.state = w.state
    ∧ (registerWorker cloud now w doc).1.providerData.terminateAfter
        = w.providerData.terminateAfter
    ∧ (registerWorker cloud now w doc).1.lastModified = w.lastModified := by
  have h : registerWorker cloud now w doc = (w, .error .opaqueError) := by
    simp [registerWorker, hp, hc, hs, hch, hj, hvm, hmatch, hts, hstate]
  exact ⟨h, by rw [h], by rw [h], by rw [h]⟩

/-- Witness for C4: a running worker with matching vmId and fresh
timestamp is refused and unchanged. -/
theorem registerWorker_duplicate_refused_witness :
    registerWorker goneCloud 1000 c4Worker goodDoc = (c4Worker, .error .opaqueError)
    ∧ c4Worker.state = .running
    ∧ c4Worker.providerData.terminateAfter = some 77
    ∧ c4Worker.lastModified = 50 :=
  ⟨(registerWorker_duplicate_refused goneCloud 1000 c4Worker goodDoc "vmid-1"
      rfl rfl rfl rfl rfl rfl rfl (by decide) (by decide)).1,
   rfl, rfl, rfl⟩

/-! ## Claim C10: the fetched vmId is persisted even on a failing
registration -/

/-- C10: when `registerWorker` runs for a worker with no stored
`providerData.vm.vmId` and the cloud GET of the VM succeeds with vmId `v`,
the fetched vmId is persisted into the worker before the vmId, timestamp
and state checks run: whatever those checks decide, the resulting worker
stores `vmId = v`; in particular, when the embedded vmId does not match,
the call fails with the opaque error yet leaves the vmId newly set. -/
theorem registerWorker_persists_fetched_vmid (cloud : Cloud) (now : Int) (w : Worker)
    (doc : RegDoc) (v ps : String) (dn : List String)
    (hp : doc.pkcs7Ok = true) (hc : doc.contentOk = true) (hs : doc.sigOk = true)
    (hch : doc.chainOk = true) (hj : doc.jsonOk = true)
    (hvm : w.providerData.vmVmId = none)
    (hget : cloud.resGet w.providerData.vm.name = .found ps v dn) :
    (registerWorker cloud now w doc).1.providerData.vmVmId = some v
    ∧ (doc.payloadVmId ≠ v →
        registerWorker cloud now w doc
          = ({ w with providerData.vmVmId := some v }, .error .opaqueError)) := by
  have hfetch : fetchVmInfo cloud w
      = ([.getRes "vm" w.providerData.vm.name],
         .ok ({ w with providerData.vmVmId := some v }, ps, v)) := by
    simp [fetchVmInfo, hget, hvm]
  constructor
  · by_cases h1 : doc.payloadVmId = v
    · by_cases h2 : doc.payloadExpiresOn > now
      · rcases hrt : w.providerData.reregistrationTimeout with _ | t <;>
          simp [registerWorker, hp, hc, hs, hch, hj, hvm, hfetch, h1, h2, hrt] <;>
          split <;> simp
      · simp [registerWorker, hp, hc, hs, hch, hj, hvm, hfetch, h1, h2]
    · simp [registerWorker, hp, hc, hs, hch, hj, hvm, hfetch, h1]
  · intro hne
    simp [registerWorker, hp, hc, hs, hch, hj, hvm, hfetch, hne]

/-- Witness for C10: a requested worker with no stored vmId, a successful
VM GET, and a mismatching document: the call errors opaquely and the vmId
is now stored. -/
theorem registerWorker_persists_fetched_vmid_witness :
    (registerWorker foundCloud 1000 c10Worker wrongVmIdDoc).1.providerData.vmVmId
      = some "vmid-1"
    ∧ registerWorker foundCloud 1000 c10Worker wrongVmIdDoc
        = ({ c10Worker with providerData.vmVmId := some "vmid-1" }, .error .opaqueError) :=
  ⟨(registerWorker_persists_fetched_vmid foundCloud 1000 c10Worker wrongVmIdDoc
      "vmid-1" "Succeeded" [] rfl rfl rfl rfl rfl rfl rfl).1,
   (registerWorker_persists_fetched_vmid foundCloud 1000 c10Worker wrongVmIdDoc
      "vmid-1" "Succeeded" [] rfl rfl rfl rfl rfl rfl rfl).2 (by decide)⟩

/-! ## Claim C1: only registration moves a worker to `running` -/

/-- C1 (failing input): a fully provisioned worker still in `requested`
whose VM GET returns 404.  `checkWorker` takes the VM-unobservable branch,
`provisionResources` finds every id set and returns
`Worker.states.RUNNING` (azure.js line 658), and `checkWorker` persists
that value as the worker's state (azure.js line 789) although the worker
never registered — contradicting the comment at azure.js lines 656-657
and the spec. -/
theorem checkWorker_persists_running_without_registration :
    checkWorker goneCloud 1000 c1Worker
      = .ok ⟨{ c1Worker with state := .running, lastModified := 1000, lastChecked := 1000 },
             [.getRes "vm" "vm-1"], 0⟩
    ∧ c1Worker.state = .requested := by
  constructor
  · rfl
  · rfl

/-! ## Claim C2: `stopped` is terminal -/

/-- C2 (counterexample): `checkWorker` on a stopped worker writes
`lastChecked` (azure.js line 788 runs unconditionally), so a field of a
stopped worker is mutated, contrary to the claim. -/
theorem checkWorker_mutates_stopped_worker :
    checkWorker goneCloud 1000 c2Worker
      = .ok ⟨{ c2Worker with lastChecked := 1000 },
             [.getRes "vm" "vm-1", .workerRemoved "vm in stopped not found"], 0⟩
    ∧ c2Worker.lastChecked = 0
    ∧ c2Worker.state = .stopped := by
  refine ⟨?_, rfl, rfl⟩
  rfl

/-- C2 (amended): `removeWorker` on a stopped worker returns immediately —
no cloud call, no record update, only the `workerRemoved` log line — and a
`checkWorker` pass over a stopped worker whose VM is gone and which carries
no legacy disk field changes nothing but `lastChecked`. -/
theorem stopped_worker_removeWorker_noop (cloud : Cloud) (now : Int) (reason : String)
    (w : Worker) (hst : w.state = .stopped) :
    removeWorker cloud now reason w = (w, .stopped, [.workerRemoved reason])
    ∧ (w.providerData.disk = none →
        cloud.resGet w.providerData.vm.name = .notFound →
        checkWorker cloud now w
          = .ok ⟨{ w with lastChecked := now },
                 [.getRes "vm" w.providerData.vm.name,
                  .workerRemoved "vm in stopped not found"], 0⟩) := by
  have hrm : ∀ (r : String) (w1 : Worker), w1.state = .stopped →
      removeWorker cloud now r w1 = (w1, .stopped, [.workerRemoved r]) := by
    intro r w1 h
    simp [removeWorker, h]
  refine ⟨hrm reason w hst, fun hdisk hget => ?_⟩
  rcases w with ⟨st, cap, exp, lm, lc, pd⟩
  simp only at hst
  subst hst
  simp only at hdisk hget
  have hx := hrm "vm in stopped not found" ⟨WState.stopped, cap, exp, lm, lc, pd⟩ rfl
  simp [checkWorker, hdisk, fetchVmInfo, hget, checkWorkerVmGone, checkFinalize,
    WState.text, hx]

/-- Witness for C2's amended statement on a concrete stopped worker. -/
theorem stopped_worker_removeWorker_noop_witness :
    removeWorker goneCloud 1000 "spot-termination" c2Worker
      = (c2Worker, .stopped, [.workerRemoved "spot-termination"])
    ∧ checkWorker goneCloud 1000 c2Worker
      = .ok ⟨{ c2Worker with lastChecked := 1000 },
             [.getRes "vm" "vm-1", .workerRemoved "vm in stopped not found"], 0⟩ :=
  ⟨(stopped_worker_removeWorker_noop goneCloud 1000 "spot-termination" c2Worker rfl).1,
   (stopped_worker_removeWorker_noop goneCloud 1000 "spot-termination" c2Worker rfl).2
     rfl rfl⟩

/-! ## Claim C3: the legacy singular disk migration -/

/-- C3 (counterexample): `checkWorker`'s migration guard is only
`_.has(providerData, 'disk')` (azure.js line 699): on a worker that has
both the legacy `disk` field and a non-empty `disks` sequence the
migration runs anyway, overwriting `disks`, and the legacy `disk` field is
still present afterwards — contradicting both halves of the claim. -/
theorem disk_migration_counterexample :
    checkWorker goneCloud 1000 c3Worker
      = .ok ⟨{ c3Worker with
               providerData := { c3Worker.providerData with
                 disks := [dOld], ip := ⟨"pip-1", some "op-pip-1", false⟩ },
               lastChecked := 1000 },
             [.getRes "vm" "vm-1", .getRes "ip" "pip-1",
              .beginCreateOrUpdate "ip" "pip-1" []], 0⟩
    ∧ c3Worker.providerData.disks = [dCur]
    ∧ c3Worker.providerData.disk = some dOld := by
  refine ⟨?_, rfl, rfl⟩
  rfl

/-- C3 (amended): one `checkWorker` pass on any worker carrying the legacy
`providerData.disk` field — whether or not `disks` is populated — replaces
`disks` with the one-element sequence holding that value; the legacy field
itself is retained, not removed.  (Stated for a `requested` worker whose
cloud GETs all 404 and whose IP has no operation, so that the rest of the
pass leaves the disks untouched.) -/
theorem disk_migration_amended (cloud : Cloud) (now : Int) (w : Worker) (d : ResData)
    (hdisk : w.providerData.disk = some d)
    (hst : w.state = .requested)
    (hipid : w.providerData.ip.id = false)
    (hipop : w.providerData.ip.operation = none)
    (hget : ∀ nm, cloud.resGet nm = .notFound) :
    (checkWorker cloud now w).toOption.map
        (fun r => (r.worker.providerData.disks, r.worker.providerData.disk))
      = some ([d], some d) := by
  simp only [checkWorker, hdisk, fetchVmInfo, hget, checkWorkerVmGone, hst]
  simp [provisionResources, provisionResource, getTypeData, hipid, hipop, hget,
    setTypeData, ipModifyFn, checkFinalize, hdisk]
  exact ⟨_, rfl, rfl, rfl⟩

/-- Witness for C3's amended statement. -/
theorem disk_migration_amended_witness :
    (checkWorker goneCloud 1000 c3Worker).toOption.map
        (fun r => (r.worker.providerData.disks, r.worker.providerData.disk))
      = some ([dOld], some dOld) :=
  disk_migration_amended goneCloud 1000 c3Worker dOld rfl rfl rfl rfl (fun _ => rfl)

/-! ## Claim C8: classification of observable VMs -/

/-- C8 (counterexample): a running worker whose VM reports
`provisioningState = Succeeded` and power states
`[PowerState/running, PowerState/stopped]` satisfies the claim's failed
condition (a power state in the fail set) and its healthy condition
simultaneously, yet `checkWorker` takes the healthy branch (the `else if`
at azure.js line 740 is not reached) and `removeWorker` is never invoked:
the trace has no `workerRemoved` entry and the worker is only touched in
`lastChecked`. -/
theorem checkWorker_mixed_states_no_removal :
    checkWorker mixedCloud 1000 c8Worker
      = .ok ⟨{ c8Worker with lastChecked := 1000 },
             [.getRes "vm" "vm-1", .instView "vm-1"], 1⟩
    ∧ hasWorkerRemoved [.getRes "vm" "vm-1", .instView "vm-1"] = false
    ∧ failPowerStates.contains "PowerState/stopped" = true
    ∧ successProvisioningStates.contains "Succeeded" = true
    ∧ successPowerStates.contains "PowerState/running" = true := by
  refine ⟨?_, rfl, rfl, rfl, rfl⟩
  rfl

/-- C8 (amended): when the VM is observable and the failed condition holds
while the healthy condition does not, `removeWorker` is invoked with the
diagnostic reason naming the provisioning and power states. -/
theorem checkWorker_failed_invokes_removal (cloud : Cloud) (now : Int) (w : Worker)
    (ps vmid : String) (dn codes : List String)
    (hget : cloud.resGet w.providerData.vm.name = .found ps vmid dn)
    (hiv : cloud.instView = .found codes)
    (hhealthy : (successProvisioningStates.contains ps
        && codes.any (fun c => successPowerStates.contains c)) = false)
    (hfailed : (failProvisioningStates.contains ps
        || codes.any (fun c => failPowerStates.contains c)) = true) :
    (checkWorker cloud now w).toOption.map
        (fun r => decide (Ev.workerRemoved ("failed state; provisioningState=" ++ ps
          ++ ", powerStates=" ++ String.intercalate ", " codes) ∈ r.events))
      = some true := by
  set reason : String := "failed state; provisioningState=" ++ ps
      ++ ", powerStates=" ++ String.intercalate ", " codes with hreason
  set w1 : Worker := match w.providerData.disk with
    | some d => { w with providerData.disks := [d] }
    | none => w with hw1
  have hname : w1.providerData.vm.name = w.providerData.vm.name := by
    rw [hw1]
    rcases w.providerData.disk <;> rfl
  set w2 : Worker := if w1.providerData.vmVmId.isNone
      then { w1 with providerData.vmVmId := some vmid } else w1 with hw2
  rcases hrm : removeWorker cloud now reason w2 with ⟨wr, sr, evr⟩
  rcases removeWorker_trace_shape cloud now reason w2 with ⟨evs, hsh, _⟩
  rw [hrm] at hsh
  simp only at hsh
  simp only [checkWorker, ← hw1, fetchVmInfo, hname, hget, hiv, ← hw2]
  simp only [hhealthy, hfailed, Bool.false_eq_true, if_false, if_true]
  simp only [← hreason, hrm]
  simp [checkFinalize, hsh, Except.toOption]

/-- Witness for C8's amended statement: provisioning state `Failed` with a
stopped power state and no healthy power state. -/
theorem checkWorker_failed_invokes_removal_witness :
    (checkWorker
        ⟨fun _ => .found "Failed" "vmid-1" [], .found ["PowerState/stopped"],
         fun _ => .done, fun nm => "op-" ++ nm, fun _ => none⟩ 1000 c8Worker).toOption.map
        (fun r => decide (Ev.workerRemoved ("failed state; provisioningState=" ++ "Failed"
          ++ ", powerStates=" ++ String.intercalate ", " ["PowerState/stopped"]) ∈ r.events))
      = some true :=
  checkWorker_failed_invokes_removal
    ⟨fun _ => .found "Failed" "vmid-1" [], .found ["PowerState/stopped"],
     fun _ => .done, fun nm => "op-" ++ nm, fun _ => none⟩ 1000 c8Worker
    "Failed" "vmid-1" [] ["PowerState/stopped"] rfl rfl (by decide) (by decide)

/-! ## Claim C5: ordered removal -/

/-- A `removeResource` call for one resource type never issues a delete
tagged with a different type. -/
theorem removeResource_delete_rtype (cloud : Cloud) (rt : String) (r : ResData)
    (rt2 nm : String) (hne : rt2 ≠ rt) :
    Ev.beginDelete rt2 nm ∉ (removeResource cloud rt r).1 := by
  intro he
  rcases removeResource_events cloud rt r _ he with h | h
  · exact Ev.noConfusion h
  · injection h with h1 h2
    exact hne h1

/-- One `removeWorker` invocation issues a NIC delete only if the VM's id
was already absent on entry and the VM GET of this invocation returned 404
(i.e. `removeResource(vm)` returned `true` first). -/
theorem removeWorker_nic_gate (cloud : Cloud) (now : Int) (reason : String) (w : Worker) :
    ∀ nm, Ev.beginDelete "nic" nm ∈ (removeWorker cloud now reason w).2.2 →
      w.providerData.vm.id = false ∧ cloud.resGet w.providerData.vm.name = .notFound := by
  intro nm hmem
  by_cases hst : w.state = .stopped
  · simp [removeWorker, hst] at hmem
  · rcases h1 : removeResource cloud "vm" w.providerData.vm with ⟨ev1, r1⟩
    have hA1 : Ev.beginDelete "nic" nm ∉ ev1 := fun he =>
      removeResource_delete_rtype cloud "vm" w.providerData.vm "nic" nm (by decide)
        (by rw [h1]; exact he)
    rcases r1 with _ | ⟨vm', vmDel⟩
    · simp [removeWorker, hst, h1] at hmem
      exact absurd hmem hA1
    · by_cases hg1 : (!vmDel || vm'.id) = true
      · simp [removeWorker, hst, h1, hg1] at hmem
        exact absurd hmem hA1
      · have hvmDel : vmDel = true := by
          cases vmDel
          · simp at hg1
          · rfl
        exact removeResource_gone cloud "vm" w.providerData.vm vm' (by rw [h1, hvmDel])

/-- One `removeWorker` invocation issues an IP delete only if the NIC's id
was already absent on entry and the NIC GET of this invocation returned
404. -/
theorem removeWorker_ip_gate (cloud : Cloud) (now : Int) (reason : String) (w : Worker) :
    ∀ nm, Ev.beginDelete "ip" nm ∈ (removeWorker cloud now reason w).2.2 →
      w.providerData.nic.id = false ∧ cloud.resGet w.providerData.nic.name = .notFound := by
  intro nm hmem
  by_cases hst : w.state = .stopped
  · simp [removeWorker, hst] at hmem
  · rcases h1 : removeResource cloud "vm" w.providerData.vm with ⟨ev1, r1⟩
    have hA1 : Ev.beginDelete "ip" nm ∉ ev1 := fun he =>
      removeResource_delete_rtype cloud "vm" w.providerData.vm "ip" nm (by decide)
        (by rw [h1]; exact he)
    rcases r1 with _ | ⟨vm', vmDel⟩
    · simp [removeWorker, hst, h1] at hmem
      exact absurd hmem hA1
    · by_cases hg1 : (!vmDel || vm'.id) = true
      · simp [removeWorker, hst, h1, hg1] at hmem
        exact absurd hmem hA1
      · rcases h2 : removeResource cloud "nic" w.providerData.nic with ⟨ev2, r2⟩
        have hA2 : Ev.beginDelete "ip" nm ∉ ev2 := fun he =>
          removeResource_delete_rtype cloud "nic" w.providerData.nic "ip" nm (by decide)
            (by rw [h2]; exact he)
        rcases r2 with _ | ⟨nic', nicDel⟩
        · simp [removeWorker, hst, h1, hg1, h2] at hmem
          rcases hmem with hmem | hmem
          · exact absurd hmem hA1
          · exact absurd hmem hA2
        · by_cases hg2 : (!nicDel || nic'.id) = true
          · simp [removeWorker, hst, h1, hg1, h2, hg2] at hmem
            rcases hmem with hmem | hmem
            · exact absurd hmem hA1
            · exact absurd hmem hA2
          · have hnicDel : nicDel = true := by
              cases nicDel
              · simp at hg2
              · rfl
            exact removeResource_gone cloud "nic" w.providerData.nic nic' (by rw [h2, hnicDel])

/-- One `removeWorker` invocation issues a disk delete only if the IP's id
was already absent on entry and the IP GET of this invocation returned
404. -/
theorem removeWorker_disks_gate (cloud : Cloud) (now : Int) (reason : String) (w : Worker) :
    ∀ nm, Ev.beginDelete "disks" nm ∈ (removeWorker cloud now reason w).2.2 →
      w.providerData.ip.id = false ∧ cloud.resGet w.providerData.ip.name = .notFound := by
  intro nm hmem
  by_cases hst : w.state = .stopped
  · simp [removeWorker, hst] at hmem
  · rcases h1 : removeResource cloud "vm" w.providerData.vm with ⟨ev1, r1⟩
    have hA1 : Ev.beginDelete "disks" nm ∉ ev1 := fun he =>
      removeResource_delete_rtype cloud "vm" w.providerData.vm "disks" nm (by decide)
        (by rw [h1]; exact he)
    rcases r1 with _ | ⟨vm', vmDel⟩
    · simp [removeWorker, hst, h1] at hmem
      exact absurd hmem hA1
    · by_cases hg1 : (!vmDel || vm'.id) = true
      · simp [removeWorker, hst, h1, hg1] at hmem
        exact absurd hmem hA1
      · rcases h2 : removeResource cloud "nic" w.providerData.nic with ⟨ev2, r2⟩
        have hA2 : Ev.beginDelete "disks" nm ∉ ev2 := fun he =>
          removeResource_delete_rtype cloud "nic" w.providerData.nic "disks" nm (by decide)
            (by rw [h2]; exact he)
        rcases r2 with _ | ⟨nic', nicDel⟩
        · simp [removeWorker, hst, h1, hg1, h2] at hmem
          rcases hmem with hmem | hmem
          · exact absurd hmem hA1
          · exact absurd hmem hA2
        · by_cases hg2 : (!nicDel || nic'.id) = true
          · simp [removeWorker, hst, h1, hg1, h2, hg2] at hmem
            rcases hmem with hmem | hmem
            · exact absurd hmem hA1
            · exact absurd hmem hA2
          · rcases h3 : removeResource cloud "ip" w.providerData.ip with ⟨ev3, r3⟩
            have hA3 : Ev.beginDelete "disks" nm ∉ ev3 := fun he =>
              removeResource_delete_rtype cloud "ip" w.providerData.ip "disks" nm (by decide)
                (by rw [h3]; exact he)
            rcases r3 with _ | ⟨ip', ipDel⟩
            · simp [removeWorker, hst, h1, hg1, h2, hg2, h3] at hmem
              rcases hmem with hmem | hmem | hmem
              · exact absurd hmem hA1
              · exact absurd hmem hA2
              · exact absurd hmem hA3
            · by_cases hg3 : (!ipDel || ip'.id) = true
              · simp [removeWorker, hst, h1, hg1, h2, hg2, h3, hg3] at hmem
                rcases hmem with hmem | hmem | hmem
                · exact absurd hmem hA1
                · exact absurd hmem hA2
                · exact absurd hmem hA3
              · have hipDel : ipDel = true := by
                  cases ipDel
                  · simp at hg3
                  · rfl
                exact removeResource_gone cloud "ip" w.providerData.ip ip' (by rw [h3, hipDel])

/-- C5: in any sequence of `removeWorker` invocations on one worker, a
`beginDelete` of the NIC is issued within an invocation only when, at the
entry of that invocation, `vm.id` was already unset and the invocation's
own VM GET returned 404 (i.e. `removeResource(vm)` returned true, the VM
verified gone, before the NIC delete); likewise the IP only after the NIC
is verified gone, and any disk only after the IP is verified gone. -/
theorem removal_pipeline_ordering (cloud : Cloud) (now : Int) (reason : String)
    (N : Nat) (w0 : Worker) (p : Worker × List Ev)
    (hp : p ∈ iterRemove cloud now reason N w0) :
    (∀ nm, Ev.beginDelete "nic" nm ∈ p.2 →
      p.1.providerData.vm.id = false ∧ cloud.resGet p.1.providerData.vm.name = .notFound)
    ∧ (∀ nm, Ev.beginDelete "ip" nm ∈ p.2 →
      p.1.providerData.nic.id = false ∧ cloud.resGet p.1.providerData.nic.name = .notFound)
    ∧ (∀ nm, Ev.beginDelete "disks" nm ∈ p.2 →
      p.1.providerData.ip.id = false ∧ cloud.resGet p.1.providerData.ip.name = .notFound) := by
  induction N generalizing w0 with
  | zero => simp [iterRemove] at hp
  | succ n ih =>
    rcases hrm : removeWorker cloud now reason w0 with ⟨w', s, ev⟩
    simp only [iterRemove, hrm, List.mem_cons] at hp
    rcases hp with hp | hp
    · subst hp
      refine ⟨fun nm hmem => ?_, fun nm hmem => ?_, fun nm hmem => ?_⟩
      · exact removeWorker_nic_gate cloud now reason w0 nm (by rw [hrm]; exact hmem)
      · exact removeWorker_ip_gate cloud now reason w0 nm (by rw [hrm]; exact hmem)
      · exact removeWorker_disks_gate cloud now reason w0 nm (by rw [hrm]; exact hmem)
    · exact ih w' hp

/-- Witness for C5: one invocation on a worker whose VM is gone but whose
NIC still has an id does issue the NIC delete, and the gate was indeed
satisfied. -/
theorem removal_pipeline_ordering_witness :
    c5Entry ∈ iterRemove goneCloud 0 "removing" 1 c5Worker
    ∧ Ev.beginDelete "nic" "nic-1" ∈ c5Entry.2
    ∧ (c5Entry.1.providerData.vm.id = false
        ∧ goneCloud.resGet c5Entry.1.providerData.vm.name = .notFound) :=
  ⟨by decide, by decide,
   (removal_pipeline_ordering goneCloud 0 "removing" 1 c5Worker c5Entry (by decide)).1
     "nic-1" (by decide)⟩

/-! ## Claim C6: provisioning is idempotent while the cloud makes no
progress -/

/-- Against a cloud whose GETs all 404 and whose polls all report
in-progress, one `provisionResource` call short-circuits on a present id,
only polls when an operation is stored, and otherwise issues exactly one
create and stores its operation URL. -/
theorem provisionResource_stall (cloud : Cloud) (now : Int) (t : RType)
    (f : Worker → List String → Worker) (w : Worker)
    (hGet : ∀ nm, cloud.resGet nm = .notFound)
    (hPoll : ∀ op, cloud.pollOp op = .inProgress) :
    provisionResource cloud now t f w =
      if (getTypeData w.providerData t).id then ([], .ok w)
      else
        match (getTypeData w.providerData t).operation with
        | some op =>
          ([.getRes t.key (getTypeData w.providerData t).name, .opRead op], .ok w)
        | none =>
          ([.getRes t.key (getTypeData w.providerData t).name,
            .beginCreateOrUpdate t.key (getTypeData w.providerData t).name w.providerData.tags],
           .ok { w with providerData :=
             (setTypeData w.providerData t { getTypeData w.providerData t with operation := some (cloud.createOpUrl (getTypeData w.providerData t).name) }) }) := by
  by_cases hid : (getTypeData w.providerData t).id
  · simp [provisionResource, hid]
  · cases hop : (getTypeData w.providerData t).operation with
    | some op => simp [provisionResource, hid, hop, hGet, handleOperation, hPoll]
    | none => simp [provisionResource, hid, hop, hGet]

/-- A trace without create events has create count zero. -/
theorem createCount_eq_zero (rt : String) (evs : List Ev)
    (h : ∀ rt2 nm tg, Ev.beginCreateOrUpdate rt2 nm tg ∉ evs) :
    createCount rt evs = 0 := by
  rw [createCount, List.length_eq_zero]
  rw [List.filter_eq_nil_iff]
  intro e he
  cases e with
  | beginCreateOrUpdate rt2 nm tg => exact absurd he (h rt2 nm tg)
  | getRes a b => simp
  | instView a => simp
  | beginDelete a b => simp
  | opRead a => simp
  | workerRemoved a => simp

/-- Create counts add up over concatenated traces. -/
theorem createCount_append (rt : String) (a b : List Ev) :
    createCount rt (a ++ b) = createCount rt a + createCount rt b := by
  simp [createCount, List.filter_append]

/-- Against a no-progress cloud, a pass of `provisionResources` over a
stalled worker changes nothing and issues no create. -/
theorem provisionResources_stalled_noop (cloud : Cloud) (now : Int) (w : Worker)
    (hGet : ∀ nm, cloud.resGet nm = .notFound)
    (hPoll : ∀ op, cloud.pollOp op = .inProgress)
    (hw : stalledW w) :
    (provisionResources cloud now w).1 = w
    ∧ ∀ rt nm tg, Ev.beginCreateOrUpdate rt nm tg ∉ (provisionResources cloud now w).2.2 := by
  have pstall := fun (t : RType) (f : Worker → List String → Worker) (w1 : Worker) =>
    provisionResource_stall cloud now t f w1 hGet hPoll
  obtain ⟨hw1, hw2, hw3⟩ := hw
  by_cases hipid : w.providerData.ip.id
  · by_cases hnicid : w.providerData.nic.id
    · by_cases hvmid : w.providerData.vm.id
      · constructor
        · simp [provisionResources, pstall, getTypeData, hipid, hnicid, hvmid]
        · intro rt nm tg
          simp [provisionResources, pstall, getTypeData, hipid, hnicid, hvmid]
      · rcases hop : w.providerData.vm.operation with _ | op
        · exact absurd hop (hw3 (by simp [hipid]) (by simp [hnicid]) (by simp [hvmid]))
        · constructor
          · simp [provisionResources, pstall, getTypeData, hipid, hnicid, hvmid, hop]
          · intro rt nm tg
            simp [provisionResources, pstall, getTypeData, hipid, hnicid, hvmid, hop]
    · rcases hop : w.providerData.nic.operation with _ | op
      · exact absurd hop (hw2 (by simp [hipid]) (by simp [hnicid]))
      · constructor
        · simp [provisionResources, pstall, getTypeData, hipid, hnicid, hop]
        · intro rt nm tg
          simp [provisionResources, pstall, getTypeData, hipid, hnicid, hop]
  · rcases hop : w.providerData.ip.operation with _ | op
    · exact absurd hop (hw1 (by simp [hipid]))
    · constructor
      · simp [provisionResources, pstall, getTypeData, hipid, hop]
      · intro rt nm tg
        simp [provisionResources, pstall, getTypeData, hipid, hop]

/-- Against a no-progress cloud, any pass of `provisionResources` leaves a
stalled worker and issues at most one create per resource type. -/
theorem provisionResources_stall_step (cloud : Cloud) (now : Int) (w : Worker)
    (hGet : ∀ nm, cloud.resGet nm = .notFound)
    (hPoll : ∀ op, cloud.pollOp op = .inProgress) :
    stalledW (provisionResources cloud now w).1
    ∧ ∀ t : RType, createCount t.key (provisionResources cloud now w).2.2 ≤ 1 := by
  have pstall := fun (t : RType) (f : Worker → List String → Worker) (w1 : Worker) =>
    provisionResource_stall cloud now t f w1 hGet hPoll
  by_cases hipid : w.providerData.ip.id
  · by_cases hnicid : w.providerData.nic.id
    · by_cases hvmid : w.providerData.vm.id
      · constructor
        · simp [provisionResources, pstall, getTypeData, hipid, hnicid, hvmid, stalledW]
        · intro t
          simp [provisionResources, pstall, getTypeData, hipid, hnicid, hvmid, createCount]
      · rcases hop : w.providerData.vm.operation with _ | op
        · constructor
          · simp [provisionResources, pstall, getTypeData, setTypeData, hipid, hnicid,
              hvmid, hop, stalledW]
          · intro t
            cases t <;>
              simp [provisionResources, pstall, getTypeData, setTypeData, hipid, hnicid,
                hvmid, hop, createCount, RType.key]
        · constructor
          · simp [provisionResources, pstall, getTypeData, hipid, hnicid, hvmid, hop,
              stalledW]
          · intro t
            simp [provisionResources, pstall, getTypeData, hipid, hnicid, hvmid, hop,
              createCount]
    · rcases hop : w.providerData.nic.operation with _ | op
      · constructor
        · simp [provisionResources, pstall, getTypeData, setTypeData, hipid, hnicid, hop,
            stalledW]
        · intro t
          cases t <;>
            simp [provisionResources, pstall, getTypeData, setTypeData, hipid, hnicid,
              hop, createCount, RType.key]
      · constructor
        · simp [provisionResources, pstall, getTypeData, hipid, hnicid, hop, stalledW]
        · intro t
          simp [provisionResources, pstall, getTypeData, hipid, hnicid, hop, createCount]
  · rcases hop : w.providerData.ip.operation with _ | op
    · constructor
      · simp [provisionResources, pstall, getTypeData, setTypeData, hipid, hop, stalledW]
      · intro t
        cases t <;>
          simp [provisionResources, pstall, getTypeData, setTypeData, hipid, hop,
            createCount, RType.key]
    · constructor
      · simp [provisionResources, pstall, getTypeData, hipid, hop, stalledW]
      · intro t
        simp [provisionResources, pstall, getTypeData, hipid, hop, createCount]

/-- C6: for any worker row and any resource type among ip, nic, vm,
invoking the provision pipeline N times while the cloud reports no
progress (every GET by name returns 404 and every stored operation polls
as in-progress) issues `beginCreateOrUpdate` at most once for that
resource type; and whenever `providerData[type].id` is set,
`provisionResource` returns immediately with no cloud call for that
type. -/
theorem provisioning_idempotent (cloud : Cloud) (now : Int) (w : Worker) (N : Nat)
    (t : RType)
    (hGet : ∀ nm, cloud.resGet nm = .notFound)
    (hPoll : ∀ op, cloud.pollOp op = .inProgress) :
    createCount t.key (iterProvision cloud now N w).2 ≤ 1
    ∧ (∀ (cloud2 : Cloud) (f : Worker → List String → Worker) (w2 : Worker),
        (getTypeData w2.providerData t).id = true →
        provisionResource cloud2 now t f w2 = ([], .ok w2)) := by
  constructor
  · have hrest : ∀ (m : Nat) (wx : Worker), stalledW wx →
        createCount t.key (iterProvision cloud now m wx).2 = 0 := by
      intro m
      induction m with
      | zero => intro wx _; simp [iterProvision, createCount]
      | succ k ih =>
        intro wx hwx
        rcases hq : provisionResources cloud now wx with ⟨wy, sy, evy⟩
        have hnoop := provisionResources_stalled_noop cloud now wx hGet hPoll hwx
        rw [hq] at hnoop
        have hwy : wy = wx := hnoop.1
        have hz : createCount t.key evy = 0 :=
          createCount_eq_zero t.key evy hnoop.2
        simp [iterProvision, hq, createCount_append, hz, ih wx (hwy ▸ hwx), hwy]
    cases N with
    | zero => simp [iterProvision, createCount]
    | succ n =>
      rcases hp : provisionResources cloud now w with ⟨w1, s1, ev1⟩
      have hstep := provisionResources_stall_step cloud now w hGet hPoll
      rw [hp] at hstep
      have h1 : createCount t.key ev1 ≤ 1 := hstep.2 t
      have h2 : createCount t.key (iterProvision cloud now n w1).2 = 0 :=
        hrest n w1 hstep.1
      simp [iterProvision, hp, createCount_append, h1, h2]
  · intro cloud2 f w2 hid
    simp [provisionResource, hid]

/-- Witness for C6: three stalled passes on a fresh worker create the IP at
most once, and a worker whose IP already has an id is skipped entirely. -/
theorem provisioning_idempotent_witness :
    createCount "ip" (iterProvision stallCloud 0 3 ⟨.requested, 1, 0, 0, 0, emptyPD⟩).2 ≤ 1
    ∧ provisionResource goneCloud 0 .ip ipModifyFn c1Worker = ([], .ok c1Worker) :=
  ⟨(provisioning_idempotent stallCloud 0 ⟨.requested, 1, 0, 0, 0, emptyPD⟩ 3 .ip
      (fun _ => rfl) (fun _ => rfl)).1,
   (provisioning_idempotent stallCloud 0 c1Worker 0 .ip
      (fun _ => rfl) (fun _ => rfl)).2 goneCloud ipModifyFn c1Worker rfl⟩

end TcAzure

